import Mathlib

/-!
Verification of the heuristic content-extraction engine of the
`AutoCrawlCrytop` crypto-news scraper (`crypto_news_scraper.py`).

The Python source is shallowly embedded: HTML documents become a tree type
`HNode` mirroring a parsed BeautifulSoup document, the scraper's functions
become executable Lean functions over that tree, and the network / filesystem
collaborators (page fetch, image fetch, wall clock) become explicit function
parameters.  Python strings are Lean `String`s (lists of characters); helper
functions named `py...` model the corresponding Python `str` methods and
stdlib routines on the inputs the scraper feeds them.
-/

namespace AutoCrawl

/-! ## Python string primitives -/

/-- Characters stripped by Python `str.strip()` (and matched by `\s`). -/
def pyWS (c : Char) : Bool :=
  c = ' ' ∨ c = '\t' ∨ c = '\n' ∨ c = '\r' ∨ c = Char.ofNat 11 ∨ c = Char.ofNat 12

/-- `str.strip()` on a character list. -/
def pyStripL (l : List Char) : List Char :=
  ((l.dropWhile pyWS).reverse.dropWhile pyWS).reverse

/-- Python `str.strip()`. -/
def pyStrip (s : String) : String := String.mk (pyStripL s.data)

/-- ASCII lower-casing of one character (the scraper only lower-cases
    ASCII markup fragments). -/
def pyLowerChar (c : Char) : Char :=
  if 'A' ≤ c ∧ c ≤ 'Z' then Char.ofNat (c.toNat + 32) else c

/-- Python `str.lower()` (ASCII model). -/
def pyLower (s : String) : String := String.mk (s.data.map pyLowerChar)

/-- Contiguous-substring test on character lists. -/
def infixOf (p l : List Char) : Bool :=
  match l with
  | [] => p.isEmpty
  | _ :: t => p.isPrefixOf l || infixOf p t

/-- Python `needle in hay` on strings. -/
def pyIn (needle hay : String) : Bool := infixOf needle.data hay.data

/-- Python `str.startswith`. -/
def pyStartswith (s pre : String) : Bool := pre.data.isPrefixOf s.data

/-- Python `str.endswith`. -/
def pyEndswith (s suf : String) : Bool := suf.data.isSuffixOf s.data

/-- Model of Python `int(str)`: optional surrounding whitespace, optional
    sign, then at least one decimal digit.  `none` models the `ValueError`
    Python raises on any other shape (digit-group underscores are not
    modelled; the scraper's inputs never contain them). -/
def pyInt? (s : String) : Option Int :=
  let l := pyStripL s.data
  let sgn : Int := match l with | '-' :: _ => -1 | _ => 1
  let ds := match l with | '-' :: r => r | '+' :: r => r | _ => l
  if ds ≠ [] ∧ ds.all (·.isDigit) then
    some (sgn * ((ds.foldl (fun a c => a * 10 + (c.toNat - '0'.toNat)) 0 : Nat) : Int))
  else none

/-- `s.split(c, 1)` when `c` occurs in `s`, `(s, "")` otherwise — the shape
    in which `urlsplit` peels off fragment and query. -/
def splitFirst (l : List Char) (c : Char) : List Char × List Char :=
  if l.contains c then (l.takeWhile (· ≠ c), (l.dropWhile (· ≠ c)).drop 1) else (l, [])

/-! ## urllib.parse model: `urlparse` / `urlunparse` / `urljoin`

The scraper resolves every extracted link and image URL through
`urllib.parse.urljoin`.  The functions below model CPython's implementation
(RFC 2396 `;`-params are folded into the path component; none of the
scraper's URLs carry params). -/

/-- Characters allowed in a URL scheme. -/
def isSchemeChar (c : Char) : Bool := c.isAlpha ∨ c.isDigit ∨ c = '+' ∨ c = '-' ∨ c = '.'

/-- Characters that may appear inside the netloc component. -/
def netlocChar (c : Char) : Bool := c ≠ '/' ∧ c ≠ '?' ∧ c ≠ '#'

structure UrlParts where
  scheme : String
  netloc : String
  path : String
  query : String
  fragment : String
deriving DecidableEq, Repr, Inhabited

/-- Model of `urllib.parse.urlsplit`: take a valid scheme before the first
    `:` (lower-cased), a `//`-introduced netloc up to the next `/`, `?` or
    `#`, then split off fragment and query. -/
def pyUrlparse (url : String) : UrlParts :=
  let l := url.data
  let pre := l.takeWhile (· ≠ ':')
  let (scheme, rest) :=
    if (l.dropWhile (· ≠ ':')) ≠ [] ∧ pre ≠ [] ∧ (pre.headD ' ').isAlpha ∧ pre.all isSchemeChar then
      (pre.map pyLowerChar, (l.dropWhile (· ≠ ':')).drop 1)
    else ([], l)
  let (netloc, rest) :=
    if ['/', '/'].isPrefixOf rest then
      ((rest.drop 2).takeWhile netlocChar, (rest.drop 2).dropWhile netlocChar)
    else ([], rest)
  let (rest, fragment) := splitFirst rest '#'
  let (path, query) := splitFirst rest '?'
  ⟨String.mk scheme, String.mk netloc, String.mk path, String.mk query, String.mk fragment⟩

/-- `urlparse` with a default scheme, as `urljoin` calls it. -/
def pyUrlparseDef (url scheme : String) : UrlParts :=
  let u := pyUrlparse url
  if u.scheme = "" then { u with scheme := scheme } else u

/-- Model of `urllib.parse.urlunsplit`. -/
def pyUrlunparse (u : UrlParts) : String :=
  let url := u.path
  let url := if u.netloc ≠ "" ∨ pyStartswith url "//" then
      "//" ++ u.netloc ++ (if url ≠ "" ∧ ¬ pyStartswith url "/" then "/" ++ url else url)
    else url
  let url := if u.scheme ≠ "" then u.scheme ++ ":" ++ url else url
  let url := if u.query ≠ "" then url ++ "?" ++ u.query else url
  if u.fragment ≠ "" then url ++ "#" ++ u.fragment else url

/-- Schemes relative to which CPython's `urljoin` resolves. -/
def usesRelative : List String :=
  ["", "ftp", "http", "gopher", "nntp", "imap", "wais", "file", "https", "shttp",
   "mms", "prospero", "rtsp", "rtspu", "sftp", "svn", "svn+ssh", "ws", "wss"]

/-- Schemes whose URLs carry a netloc component. -/
def usesNetloc : List String :=
  ["", "ftp", "http", "gopher", "nntp", "telnet", "imap", "wais", "file", "mms",
   "https", "shttp", "snews", "prospero", "rtsp", "rtspu", "rsync", "svn",
   "svn+ssh", "sftp", "nfs", "git", "git+ssh", "ws", "wss"]

def splitSlash (s : String) : List String := (s.data.splitOn '/').map String.mk

def joinSlash (l : List String) : String := String.intercalate "/" l

/-- `segments[1:-1] = filter(None, segments[1:-1])` from CPython's `urljoin`. -/
def filterMiddle (segs : List String) : List String :=
  match segs with
  | [] => []
  | [x] => [x]
  | x :: rest =>
    match rest.getLast?, rest.dropLast with
    | some lastSeg, mid => x :: (mid.filter (· ≠ "") ++ [lastSeg])
    | none, _ => [x]

/-- Model of `urllib.parse.urljoin` (CPython 3.x algorithm). -/
def pyUrljoin (base url : String) : String :=
  if base = "" then url
  else if url = "" then base
  else
    let b := pyUrlparse base
    let u := pyUrlparseDef url b.scheme
    if u.scheme ≠ b.scheme ∨ u.scheme ∉ usesRelative then url
    else if u.scheme ∈ usesNetloc ∧ u.netloc ≠ "" then
      pyUrlunparse ⟨u.scheme, u.netloc, u.path, u.query, u.fragment⟩
    else
      let netloc := if u.scheme ∈ usesNetloc then b.netloc else u.netloc
      if u.path = "" then
        pyUrlunparse ⟨u.scheme, netloc, b.path,
          (if u.query ≠ "" then u.query else b.query), u.fragment⟩
      else
        let baseParts := splitSlash b.path
        let baseParts := if baseParts.getLast? ≠ some "" then baseParts.dropLast else baseParts
        let segments :=
          if pyStartswith u.path "/" then splitSlash u.path
          else filterMiddle (baseParts ++ splitSlash u.path)
        let resolvedPath := segments.foldl
          (fun acc seg =>
            if seg = ".." then acc.dropLast else if seg = "." then acc else acc ++ [seg]) []
        let resolvedPath :=
          if segments.getLast? = some "." ∨ segments.getLast? = some ".." then
            resolvedPath ++ [""] else resolvedPath
        let path := if joinSlash resolvedPath = "" then "/" else joinSlash resolvedPath
        pyUrlunparse ⟨u.scheme, netloc, path, u.query, u.fragment⟩

/-- The scraper's URL-resolution pattern (src lines 140-142, 327-329):
    a candidate already carrying an `http://`/`https://` prefix is kept,
    anything else is joined against the base. -/
def resolveUrl (base cand : String) : String :=
  if pyStartswith cand "http://" ∨ pyStartswith cand "https://" then cand
  else pyUrljoin base cand

/-- Canonical-URL resolution for a listing unit's first link
    (src lines 341-345: the `/`-prefixed case also joins). -/
def resolveHref (base href : String) : String :=
  if pyStartswith href "/" then pyUrljoin base href
  else if pyStartswith href "http://" ∨ pyStartswith href "https://" then href
  else pyUrljoin base href

/-! ## Parsed-HTML tree model (BeautifulSoup documents)

An `HNode` is a parsed markup node: an element with a tag name, an attribute
list and children, or a bare text node.  BeautifulSoup traversal helpers are
modelled below; `find_all` enumerates matching descendant elements in
document (preorder) order. -/

inductive HNode where
  | elem : String → List (String × String) → List HNode → HNode
  | text : String → HNode
deriving Repr, Inhabited

mutual
/-- All descendant nodes of a node, in document (preorder) order. -/
def HNode.descendants : HNode → List HNode
  | .text _ => []
  | .elem _ _ cs => HNode.descList cs
def HNode.descList : List HNode → List HNode
  | [] => []
  | c :: cs => c :: HNode.descendants c ++ HNode.descList cs
end

mutual
/-- `tag.text`: concatenation of all descendant strings. -/
def HNode.textContent : HNode → String
  | .text s => s
  | .elem _ _ cs => HNode.textList cs
def HNode.textList : List HNode → String
  | [] => ""
  | c :: cs => HNode.textContent c ++ HNode.textList cs
end

mutual
/-- Structural equality, modelling BeautifulSoup `Tag.__eq__` ("two tags are
    equal if they represent the same markup"; attribute order is not
    significant in BS but the scraped markup never repeats attributes in
    different orders). -/
def HNode.beq : HNode → HNode → Bool
  | .text a, .text b => a == b
  | .elem t1 a1 c1, .elem t2 a2 c2 => t1 == t2 && a1 == a2 && HNode.beqList c1 c2
  | .text _, .elem _ _ _ => false
  | .elem _ _ _, .text _ => false
def HNode.beqList : List HNode → List HNode → Bool
  | [], [] => true
  | x :: xs, y :: ys => HNode.beq x y && HNode.beqList xs ys
  | [], _ :: _ => false
  | _ :: _, [] => false
end

mutual
/-- BeautifulSoup `tag.string`: the single text child, recursing through a
    single element child; `none` when the tag has zero or several children. -/
def stringOf : HNode → Option String
  | .text s => some s
  | .elem _ _ cs => stringOfList cs
def stringOfList : List HNode → Option String
  | [c] => stringOf c
  | _ => none
end

/-- `find_all(pred)`: matching descendants in document order. -/
def HNode.findAll (n : HNode) (p : HNode → Bool) : List HNode :=
  n.descendants.filter p

/-- `find(pred)`: first matching descendant in document order. -/
def HNode.find? (n : HNode) (p : HNode → Bool) : Option HNode :=
  (n.findAll p).head?

/-- Attribute lookup (`tag.get(key)` / `key in tag.attrs`); an HTML parser
    keeps the first occurrence of a repeated attribute. -/
def attr? (n : HNode) (k : String) : Option String :=
  match n with
  | .text _ => none
  | .elem _ attrs _ => (attrs.find? (fun p => p.1 = k)).map (·.2)

/-- A *truthy* attribute value (`tag.get(key)` used in a boolean context):
    present and non-empty. -/
def attrTruthy (n : HNode) (k : String) : Option String :=
  match attr? n k with
  | some v => if v ≠ "" then some v else none
  | none => none

def tagIs (n : HNode) (t : String) : Bool :=
  match n with
  | .elem tag _ _ => tag == t
  | .text _ => false

def tagIn (n : HNode) (ts : List String) : Bool := ts.any (tagIs n)

/-- `str(tag.get('class', ''))` — the raw class attribute string (the scraper
    only ever substring-matches space-free lowercase terms against it, for
    which the raw string agrees with Python's `str` of the token list). -/
def classAttr (n : HNode) : String := (attr? n "class").getD ""

/-- `c and any(term in str(c).lower() for term in terms)` from the scraper's
    `class_=lambda` filters. -/
def classSubstrAny (n : HNode) (terms : List String) : Bool :=
  classAttr n ≠ "" ∧ terms.any (fun t => pyIn t (pyLower (classAttr n)))

/-- Whitespace-separated class tokens, as CSS selectors match them. -/
def classTokens (s : String) : List String :=
  (s.data.splitOn ' ').filterMap (fun w => if w = [] then none else some (String.mk w))

/-- CSS class selector `.tok` (exact token membership). -/
def hasClassToken (n : HNode) (tok : String) : Bool :=
  (classTokens (classAttr n)).contains tok

mutual
/-- `element.decompose()` applied to every element matching `p`
    (top-down subtree removal). -/
def removeAll (p : HNode → Bool) : HNode → HNode
  | .text s => .text s
  | .elem t a cs => .elem t a (removeAllList p cs)
def removeAllList (p : HNode → Bool) : List HNode → List HNode
  | [] => []
  | c :: cs => (if p c then [] else [removeAll p c]) ++ removeAllList p cs
end

/-! ## Data model -/

structure ImageRef where
  url : String
  alt : String
  title : String
  is_thumbnail : Bool
deriving DecidableEq, Repr, Inhabited

structure LocalImageRef where
  url : String
  local_path : String
  alt : String
  title : String
  is_thumbnail : Bool
deriving DecidableEq, Repr, Inhabited

/-- The `ImageRef` fields carried by a local-image entry. -/
def LocalImageRef.toRef (l : LocalImageRef) : ImageRef :=
  ⟨l.url, l.alt, l.title, l.is_thumbnail⟩

structure NewsItem where
  title : String
  url : Option String
  timestamp : String
  tags : List String
  summary : String
  content : String
  scraped_at : String
  images : List ImageRef
  local_images : List LocalImageRef
deriving DecidableEq, Repr, Inhabited

/-! ## Image candidate filter — `extract_article_images` (src 102-173) -/

def skipClasses : List String := ["icon", "avatar", "logo", "thumbnail", "thumb", "badge"]

def imgSrcAttrs : List String := ["src", "data-src", "data-lazy-src", "data-original"]

def firstTruthyAttr (img : HNode) : List String → Option String
  | [] => none
  | a :: rest =>
    match attrTruthy img a with
    | some v => some v
    | none => firstTruthyAttr img rest

/-- Stages 3-5 of the `for img in img_tags` loop body (src 125-153): the
    class filter, the source-attribute cascade and the URL resolution.
    These stages cannot raise. -/
def imgCandidateRest (base_url : String) (img : HNode) : Except String (Option ImageRef) :=
  if skipClasses.any (fun c => pyIn c (pyLower (classAttr img))) then .ok none
  else
    match firstTruthyAttr img imgSrcAttrs with
    | none => .ok none
    | some u =>
      .ok (some ⟨resolveUrl base_url u,
        pyStrip ((attr? img "alt").getD ""), pyStrip ((attr? img "title").getD ""), false⟩)

/-- Stage 2 of the loop body: the height check (src 122), reached only when
    the width check passed.  `int()` on a truthy non-numeric value raises. -/
def imgCandidateH (base_url : String) (img : HNode) : Except String (Option ImageRef) :=
  match attrTruthy img "height" with
  | some h =>
    match pyInt? h with
    | none => .error ("invalid literal for int() with base 10: " ++ h)
    | some n => if n < 100 then .ok none else imgCandidateRest base_url img
  | none => imgCandidateRest base_url img

/-- One iteration of the `for img in img_tags` loop: `none` when the image is
    filtered out, `some ref` when kept, `Except.error` when Python's `int()`
    raises on a truthy non-numeric width/height attribute (src 120-122). -/
def imgCandidate (base_url : String) (img : HNode) : Except String (Option ImageRef) :=
  match attrTruthy img "width" with
  | some w =>
    match pyInt? w with
    | none => .error ("invalid literal for int() with base 10: " ++ w)
    | some n => if n < 100 then .ok none else imgCandidateH base_url img
  | none => imgCandidateH base_url img

def imgPass (base_url : String) : List HNode → Except String (List ImageRef)
  | [] => .ok []
  | img :: rest =>
    match imgCandidate base_url img with
    | .error e => .error e
    | .ok c =>
      match imgPass base_url rest with
      | .error e => .error e
      | .ok r => .ok (match c with | some ref => ref :: r | none => r)

/-- The lazy capture group `(.*?)['"]\)` of the background-image regex:
    shortest prefix whose next character is a quote followed by `)`;
    `.` does not cross a newline. -/
def bgCapture : List Char → Option (List Char)
  | [] => none
  | c :: rest =>
    if (c = '\'' ∨ c = '"') ∧ rest.head? == some ')' then some []
    else if c = '\n' then none
    else (bgCapture rest).map (c :: ·)

def dropPrefix? (pre l : List Char) : Option (List Char) :=
  if pre.isPrefixOf l then some (l.drop pre.length) else none

/-- Try the regex `background-image\s*:\s*url\(['"](.*?)['"]\)` at the head
    of `l`, returning the capture. -/
def matchBgAt (l : List Char) : Option (List Char) := do
  let r ← dropPrefix? "background-image".data l
  let r := r.dropWhile pyWS
  let r ← match r with | ':' :: t => some t | _ => none
  let r := r.dropWhile pyWS
  let r ← dropPrefix? "url(".data r
  let r ← match r with
    | c :: t => if c = '\'' ∨ c = '"' then some t else none
    | [] => none
  bgCapture r

/-- `re.search`: leftmost position at which the pattern matches. -/
def bgSearch : List Char → Option (List Char)
  | [] => none
  | l@(_ :: t) =>
    match matchBgAt l with
    | some cap => some cap
    | none => bgSearch t

/-- Background-image harvesting for one styled element (src 156-171). -/
def bgImageOf (base_url : String) (el : HNode) : Option ImageRef :=
  match attr? el "style" with
  | none => none
  | some style =>
    if pyIn "background-image" style then
      match bgSearch style.data with
      | some cap => some ⟨resolveUrl base_url (String.mk cap), "", "", false⟩
      | none => none
    else none

/-- `extract_article_images(container, base_url)` (src 102-173).  The
    `Except.error` case models the uncaught `ValueError` Python raises when
    an `img` carries a truthy non-numeric width/height attribute. -/
def extract_article_images (container : HNode) (base_url : String) :
    Except String (List ImageRef) :=
  match imgPass base_url (container.findAll (tagIs · "img")) with
  | .error e => .error e
  | .ok imgs =>
    .ok (imgs ++
      (container.findAll (fun n => (attr? n "style").isSome)).filterMap (bgImageOf base_url))

/-! ## Image download — `download_image` (src 175-225) -/

/-- `os.path.basename` (posix) of a path. -/
def pyBasename (p : String) : String := String.mk ((p.data.splitOn '/').getLastD [])

/-- Model of `download_image` on the path the scraper exercises (the caller
    always supplies a filename, so the filename-generation branch is dead).
    The image-byte fetch collaborator yields the response `Content-Type` on
    success; transport and filesystem failures are its `error` case.  Returns
    the saved path, or `none` on failure or a non-`image/*` content type. -/
def download_image (fetchImage : String → Except String String)
    (img_url folder filename : String) : Option String :=
  let full_path := folder ++ "/" ++ filename
  match fetchImage img_url with
  | .error _ => none
  | .ok content_type =>
    if pyStartswith content_type "image/" then some full_path else none

/-! ## Article-body extractor — `get_article_content` (src 12-100) -/

/-- `soup.select('header, footer, nav, aside, .sidebar, .comments, .related,
    .share, .social, script, style, [role="banner"], [role="navigation"]')`
    (src 34). -/
def noiseMatch (n : HNode) : Bool :=
  tagIn n ["header", "footer", "nav", "aside", "script", "style"] ∨
  ["sidebar", "comments", "related", "share", "social"].any (hasClassToken n) ∨
  attr? n "role" == some "banner" ∨ attr? n "role" == some "navigation"

/-- `content_container.select('.share, .social, .related, .recommended,
    .advertisements, .ad, .ads')` (src 76). -/
def cleanMatch (n : HNode) : Bool :=
  ["share", "social", "related", "recommended", "advertisements", "ad", "ads"].any
    (hasClassToken n)

/-- The ordered content selectors of approach 1 (src 41-45), as predicates. -/
def contentSelectors : List (HNode → Bool) :=
  [ (tagIs · "article"), (tagIs · "main"),
    (hasClassToken · "post-content"), (hasClassToken · "entry-content"),
    (hasClassToken · "article-content"), (hasClassToken · "content"),
    (hasClassToken · "article__body"), (hasClassToken · "story-body"),
    (hasClassToken · "post-body"), (hasClassToken · "article-body"),
    (hasClassToken · "news-content"),
    (fun n => attr? n "itemprop" == some "articleBody"),
    (fun n => attr? n "property" == some "content:encoded") ]

/-- Approach 1 (src 46-53): first selector, in order, yielding a container
    with more than 200 characters of stripped text. -/
def approach1 (soup : HNode) : Option HNode :=
  contentSelectors.findSome? (fun sel =>
    (soup.findAll sel).find? (fun c => (pyStrip c.textContent).length > 200))

/-- Approach 2 (src 56-62): first `div`/`section` with more than 500
    characters of text and more than 3 paragraph descendants. -/
def approach2 (soup : HNode) : Option HNode :=
  (soup.findAll (tagIn · ["div", "section"])).find? (fun c =>
    (pyStrip c.textContent).length > 500 ∧ (c.findAll (tagIs · "p")).length > 3)

/-- The container cascade of `get_article_content` (src 38-62). -/
def findContainer (soup : HNode) : Option HNode :=
  match approach1 soup with
  | some c =>
    if (pyStrip c.textContent).length < 200 then some ((approach2 soup).getD c) else some c
  | none => approach2 soup

/-- `str.splitlines` on the `\n`-separated text the scraper builds (the
    scraped paragraph text carries no other line separators). -/
def pySplitlinesNL (s : String) : List String := (s.data.splitOn '\n').map String.mk

def contentFailMsg : String := "Could not extract article content."

def fetchErrMsg (e : String) : String := "Error fetching article content: " ++ e

structure ArticleResult where
  content : String
  images : List ImageRef
deriving DecidableEq, Repr, Inhabited

/-- `get_article_content(article_url, headers, extract_images)` (src 12-100).
    The page-fetch collaborator returns a parsed document or a transport /
    parse error.  When `extract_images` is false the Python function returns
    the bare content string; here the result record then carries an empty
    image list, which is how every caller reads it. -/
def get_article_content (fetchPage : String → Except String HNode)
    (article_url : String) (extract_images : Bool) : ArticleResult :=
  match fetchPage article_url with
  | .error e => ⟨fetchErrMsg e, []⟩
  | .ok page =>
    let soup := removeAll noiseMatch page
    match findContainer soup with
    | none =>
      if extract_images then
        match extract_article_images soup article_url with
        | .ok imgs => ⟨contentFailMsg, imgs⟩
        | .error e => ⟨fetchErrMsg e, []⟩
      else ⟨contentFailMsg, []⟩
    | some c0 =>
      let c := removeAll cleanMatch c0
      match (if extract_images then extract_article_images c article_url else .ok []) with
      | .error e => ⟨fetchErrMsg e, []⟩
      | .ok imgs =>
        let paragraphs := c.findAll (tagIs · "p")
        let content :=
          if paragraphs.length > 1 then
            String.intercalate "\n\n" (paragraphs.filterMap (fun p =>
              let t := pyStrip p.textContent
              if t ≠ "" then some t else none))
          else pyStrip c.textContent
        let content := String.intercalate "\n"
          ((pySplitlinesNL content).filterMap (fun line =>
            let t := pyStrip line
            if t ≠ "" then some t else none))
        ⟨content, imgs⟩

/-! ## Article-unit locator — the four-strategy cascade (src 256-295) -/

/-- The listing URL the scraper is hard-wired to (src 239). -/
def listingUrl : String := "https://crypto.news/"

/-- `soup.find('h2', string=lambda t: t and 'Latest' in t)` (src 257). -/
def isLatestH2 (n : HNode) : Bool :=
  tagIs n "h2" && (match stringOf n with | some t => pyIn "Latest" t | none => false)

/-- Whole-document preorder node list (the soup root first). -/
def preorder (root : HNode) : List HNode := root :: root.descendants

/-- Strategy 1 (src 257-264): the first `div` after the "Latest" heading in
    document order (`find_next`), then all `article` descendants of it. -/
def strategy1 (soup : HNode) : List HNode :=
  match (preorder soup).dropWhile (fun n => ¬ isLatestH2 n) with
  | [] => []
  | _ :: after =>
    match (after.filter (tagIs · "div")).head? with
    | some cont => cont.findAll (tagIs · "article")
    | none => []

def newsSectionTerms : List String := ["news", "post", "article", "item", "story"]

mutual
/-- Strategy 4's `link.find_parent(['div', 'article', 'li'])` for every
    `a` whose string contains "Read more" (src 291-295): traverse the tree
    carrying the nearest enclosing `div`/`article`/`li`, emitting it at each
    matching link, in document order. -/
def readMoreParents (anc : Option HNode) : HNode → List HNode
  | .text _ => []
  | .elem tag attrs cs =>
    let self := HNode.elem tag attrs cs
    let isReadMore := tagIs self "a" &&
      (match stringOf self with | some t => pyIn "Read more" t | none => false)
    let here := if isReadMore then (match anc with | some p => [p] | none => []) else []
    let ancNext := if tag = "div" ∨ tag = "article" ∨ tag = "li" then some self else anc
    here ++ readMoreParentsList ancNext cs
def readMoreParentsList : Option HNode → List HNode → List HNode
  | _, [] => []
  | anc, c :: cs => readMoreParents anc c ++ readMoreParentsList anc cs
end

/-- The ordered four-strategy unit-locator cascade (src 256-295). -/
def findArticles (soup : HNode) : List HNode :=
  let a := strategy1 soup
  let a :=
    if a.isEmpty then
      let a2 := soup.findAll (tagIs · "article")
      if a2.isEmpty then
        (soup.findAll (fun n => tagIn n ["div", "li"] ∧ classSubstrAny n newsSectionTerms)).filter
          (fun s => (s.find? (tagIs · "a")).isSome ∧
            ((s.find? (tagIs · "h3")).isSome ∨ (s.find? (tagIs · "h4")).isSome ∨
              pyStrip s.textContent ≠ ""))
      else a2
    else a
  if a.isEmpty then
    let top_stories := soup.findAll (fun n => tagIs n "div" ∧ classAttr n ≠ "" ∧
      (pyIn "top-stories" (pyLower (classAttr n)) ∨ pyIn "stories" (pyLower (classAttr n))))
    let fromStories := (top_stories.map (fun sec =>
      (sec.findAll (tagIn · ["div", "li", "article"])).filter
        (fun it => (it.find? (tagIs · "a")).isSome))).flatten
    (readMoreParents none soup).foldl
      (fun acc p => if acc.any (HNode.beq p) then acc else acc ++ [p]) fromStories
  else a

/-! ## Listing-item field extractor (src 316-407) -/

/-- Thumbnail extraction from a listing unit (src 318-335). -/
def extractThumbnail (article : HNode) : Option ImageRef :=
  match article.find? (tagIs · "img") with
  | none => none
  | some img =>
    match attr? img "src" with
    | none => none
    | some src =>
      let thumbnail_url :=
        if pyEndswith src "lazy-placeholder.png" ∧ (attr? img "data-src").isSome then
          (attr? img "data-src").getD ""
        else src
      if thumbnail_url ≠ "" ∧
          ¬ (pyEndswith thumbnail_url "lazy-placeholder.png" ∨
             pyEndswith thumbnail_url "blank.gif") then
        some ⟨resolveUrl listingUrl thumbnail_url,
          (attr? img "alt").getD "", (attr? img "title").getD "", true⟩
      else none

/-- Canonical URL from a listing unit's first link (src 337-352):
    `none` when the first link has no `href`. -/
def extractArticleUrl (article : HNode) : Option String :=
  match article.find? (tagIs · "a") with
  | some a =>
    match attr? a "href" with
    | some href => some (resolveHref listingUrl href)
    | none => none
  | none => none

/-- Title fallbacks (src 354-369). -/
def extractTitle (article : HNode) : String :=
  match article.find? (tagIn · ["h2", "h3", "h4"]) with
  | some h => pyStrip h.textContent
  | none =>
    match article.find? (fun n => tagIs n "a" ∧ classSubstrAny n ["title", "heading"]) with
    | some l => pyStrip l.textContent
    | none =>
      match article.find? (tagIs · "a") with
      | some link =>
        let t := pyStrip link.textContent
        if t ≠ "" ∧ t.length > 10 then t else "No title"
      | none => "No title"

def timeWords : List String := ["ago", "hour", "minute", "second", "day", "week"]

/-- The span/div/p scan of the timestamp fallback (src 378-383). -/
def timestampScan : List HNode → String
  | [] => "Unknown time"
  | n :: rest =>
    let text := pyLower (pyStrip n.textContent)
    if (timeWords.any (fun w => pyIn w text)) ∧ text.length < 20 then pyStrip n.textContent
    else timestampScan rest

/-- Timestamp fallbacks (src 371-383). -/
def extractTimestamp (article : HNode) : String :=
  match article.find? (tagIs · "time") with
  | some t => pyStrip t.textContent
  | none =>
    match article.find? (fun n => (attrTruthy n "datetime").isSome) with
    | some t => pyStrip t.textContent
    | none => timestampScan (article.findAll (tagIn · ["span", "div", "p"]))

/-- Tag collection (src 386-391). -/
def extractTags (article : HNode) : List String :=
  (article.findAll (fun n => tagIs n "a" ∧ classSubstrAny n ["category", "tag", "topic"])).filterMap
    (fun e =>
      let t := pyStrip e.textContent
      if t ≠ "" ∧ t.length < 30 then some t else none)

/-- First-paragraph summary with the timestamp substring guard (src 394-401). -/
def paragraphSummary (article : HNode) (timestamp : String) : String :=
  match article.find? (tagIs · "p") with
  | some p =>
    let t := pyStrip p.textContent
    if t ≠ "" ∧ t.length > 10 then
      if pyIn (pyLower t) (pyLower timestamp) ∨ pyIn (pyLower timestamp) (pyLower t) then ""
      else t
    else ""
  | none => ""

/-- The unguarded `div` fallback for the summary (src 404-407). -/
def divSummary (article : HNode) : String :=
  match article.find? (fun n => tagIs n "div" ∧ classSubstrAny n ["summary", "excerpt", "content"]) with
  | some d =>
    let t := pyStrip d.textContent
    if t ≠ "" ∧ t.length > 10 then t else ""
  | none => ""

/-- Summary extraction (src 393-407). -/
def extractSummary (article : HNode) (timestamp : String) : String :=
  let s := paragraphSummary article timestamp
  if s = "" then divSummary article else s

/-! ## Run loop — `get_latest_crypto_news` (src 227-474) -/

/-- Thumbnail merge (src 424-426): insert the listing thumbnail at the front
    unless its URL already appears among the article-body images. -/
def mergeThumbnail (thumb : Option ImageRef) (imgs : List ImageRef) : List ImageRef :=
  match thumb with
  | some t => if (imgs.map (·.url)).contains t.url then imgs else t :: imgs
  | none => imgs

/-- `f"image_{j+1}_{os.path.basename(urlparse(img_url).path)}"` (src 439). -/
def imgFilename (j : Nat) (img_url : String) : String :=
  "image_" ++ toString (j + 1) ++ "_" ++ pyBasename (pyUrlparse img_url).path

/-- The image-download loop (src 437-449), `j` the running index. -/
def buildLocalImages (fetchImage : String → Except String String) (folder : String) :
    Nat → List ImageRef → List LocalImageRef
  | _, [] => []
  | j, img :: rest =>
    match download_image fetchImage img.url folder (imgFilename j img.url) with
    | some path =>
      ⟨img.url, path, img.alt, img.title, img.is_thumbnail⟩ ::
        buildLocalImages fetchImage folder (j + 1) rest
    | none => buildLocalImages fetchImage folder (j + 1) rest

/-- One loop body of the per-unit extraction (src 317-464), for a unit that
    was not skipped as a duplicate; `i` is the enumeration index, `now` the
    wall-clock string. -/
def buildItem (fetchPage : String → Except String HNode)
    (fetchImage : String → Except String String) (now : String)
    (extract_images download_images : Bool) (images_folder : String)
    (i : Nat) (article : HNode) (article_url : Option String) : NewsItem :=
  let thumbnail := extractThumbnail article
  let title := extractTitle article
  let timestamp := extractTimestamp article
  let tags := extractTags article
  let summary := extractSummary article timestamp
  let (content, article_images) :=
    match article_url with
    | none => ("", [])
    | some u =>
      if extract_images then
        let r := get_article_content fetchPage u true
        (r.content, mergeThumbnail thumbnail r.images)
      else ((get_article_content fetchPage u false).content, [])
  let local_images :=
    if download_images ∧ article_images ≠ [] then
      buildLocalImages fetchImage (images_folder ++ "/article_" ++ toString (i + 1)) 0
        article_images
    else []
  { title := title, url := article_url, timestamp := timestamp, tags := tags,
    summary := summary, content := content, scraped_at := now,
    images := if extract_images then article_images else [],
    local_images := if download_images then local_images else [] }

/-- The enumeration loop over located units (src 317-464): `processed` is the
    seen-URL set (first occurrence wins, duplicate units skipped whole),
    `i` the enumeration index (skipped units still consume an index). -/
def processLoop (fetchPage : String → Except String HNode)
    (fetchImage : String → Except String String) (now : String)
    (extract_images download_images : Bool) (images_folder : String) :
    List HNode → List String → Nat → List NewsItem
  | [], _, _ => []
  | article :: rest, processed, i =>
    match extractArticleUrl article with
    | some u =>
      if processed.contains u then
        processLoop fetchPage fetchImage now extract_images download_images images_folder
          rest processed (i + 1)
      else
        buildItem fetchPage fetchImage now extract_images download_images images_folder
            i article (some u) ::
          processLoop fetchPage fetchImage now extract_images download_images images_folder
            rest (u :: processed) (i + 1)
    | none =>
      buildItem fetchPage fetchImage now extract_images download_images images_folder
          i article none ::
        processLoop fetchPage fetchImage now extract_images download_images images_folder
          rest processed (i + 1)

/-- The record sequence produced from a parsed listing page (src 296-469):
    locate units, truncate to `max_articles` when positive (src 312-314,
    after the cascade, before de-duplication), then run the per-unit loop. -/
def runItems (fetchPage : String → Except String HNode)
    (fetchImage : String → Except String String) (now : String) (max_articles : Int)
    (extract_images download_images : Bool) (images_folder : String)
    (soup : HNode) : List NewsItem :=
  let articles := findArticles soup
  if articles.isEmpty then []
  else
    let articles := if max_articles > 0 then articles.take max_articles.toNat else articles
    processLoop fetchPage fetchImage now extract_images download_images images_folder
      articles [] 0

/-- `get_latest_crypto_news` (src 227-474).  The listing fetch/parse
    collaborator result is the first parameter; its failure is the run-fatal
    single-error-value shape (src 471-474).  No exception escapes the inner
    loop in the source (each fallible step catches its own), so the `ok`
    branch is total. -/
def get_latest_crypto_news (fetchListing : Except String HNode)
    (fetchPage : String → Except String HNode)
    (fetchImage : String → Except String String) (now : String) (max_articles : Int)
    (extract_images download_images : Bool) (images_folder : String) :
    Except String (List NewsItem) :=
  match fetchListing with
  | .error e => .error ("Request error: " ++ e)
  | .ok soup =>
    .ok (runItems fetchPage fetchImage now max_articles extract_images download_images
      images_folder soup)

/-! ## Derived predicates used to state properties -/

/-- The height attribute either is absent/empty or parses as an integer. -/
def heightDimOk (img : HNode) : Bool :=
  match attrTruthy img "height" with
  | some h => (pyInt? h).isSome
  | none => true

/-- The width/height attribute shapes on which the `int()` calls of the image
    filter (src 120-122) do not raise, mirroring the source's check order (a
    sub-100 width skips the image before its height is ever parsed). -/
def imgDimOk (img : HNode) : Bool :=
  match attrTruthy img "width" with
  | some w =>
    match pyInt? w with
    | none => false
    | some n => if n < 100 then true else heightDimOk img
  | none => heightDimOk img

/-! ## Concrete fixtures for witnesses and counterexamples -/

/-- A page-fetch collaborator whose every request fails. -/
def fpErr : String → Except String HNode := fun _ => .error "boom"

/-- An image-fetch collaborator whose every request fails. -/
def fiErr : String → Except String String := fun _ => .error "boom"

/-- A listing document matched by none of the four locator strategies. -/
def c8soup : HNode := .elem "html" [] [.elem "body" [] [.elem "p" [] [.text "hi"]]]

/-- A listing unit whose only `img` has `data-src` but no `src`. -/
def c10unit : HNode := .elem "article" [] [.elem "img" [("data-src", "/real.jpg")] []]

/-- The `img` element inside `c10unit`. -/
def c10img : HNode := .elem "img" [("data-src", "/real.jpg")] []

/-- An article page with no main-content container and two identical images. -/
def c2doc : HNode := .elem "html" [] [.elem "body" []
  [.elem "img" [("src", "/a.jpg")] [], .elem "img" [("src", "/a.jpg")] []]]

/-- A listing page with a single unit linking to the article of `c2doc`. -/
def c2soup : HNode := .elem "html" [] [.elem "body" []
  [.elem "article" [] [.elem "a" [("href", "/x")] []]]]

/-- Page fetch serving `c2doc` for every article URL. -/
def c2fp : String → Except String HNode := fun _ => .ok c2doc

/-- The single record produced from `c2soup` with image extraction on. -/
def c2rec : NewsItem := (runItems c2fp fiErr "now" 0 true false "imgs" c2soup).headD default

/-- A listing page whose only unit carries one `div class="summary"` whose
    short time-like text is picked up both as timestamp and as summary. -/
def c3soup : HNode := .elem "html" [] [.elem "body" []
  [.elem "article" [] [.elem "div" [("class", "summary")] [.text "about 2 hours ago"]]]]

/-- The single record produced from `c3soup`. -/
def c3rec : NewsItem := (runItems fpErr fiErr "now" 0 false false "imgs" c3soup).headD default

/-- A unit with a time-like span and no summary sources at all. -/
def c3warticle : HNode := .elem "article" [] [.elem "span" [] [.text "3 hours ago"]]

/-- A content region whose `img` carries a non-numeric `width` attribute. -/
def c5container : HNode := .elem "div" []
  [.elem "img" [("width", "abc"), ("src", "/a.jpg")] []]

/-- An article page with no locatable container and a width-poisoned image. -/
def c6doc : HNode := .elem "html" [] [.elem "body" []
  [.elem "img" [("width", "abc"), ("src", "/a.jpg")] []]]

/-- Page fetch serving `c6doc`. -/
def c6fp : String → Except String HNode := fun _ => .ok c6doc

/-- An article page with no locatable container and no images at all. -/
def c6wdoc : HNode := .elem "html" [] [.elem "body" [] [.elem "p" [] [.text "hi"]]]

/-- Page fetch serving `c6wdoc`. -/
def c6wfp : String → Except String HNode := fun _ => .ok c6wdoc

/-- A listing page with three units, the first two linking to the same URL. -/
def c1soup : HNode := .elem "html" [] [.elem "body" []
  [.elem "article" [] [.elem "a" [("href", "/a")] []],
   .elem "article" [] [.elem "a" [("href", "/a")] []],
   .elem "article" [] [.elem "a" [("href", "/b")] []]]]

/-- A listing page with three units linking to three distinct URLs. -/
def c1wsoup : HNode := .elem "html" [] [.elem "body" []
  [.elem "article" [] [.elem "a" [("href", "/a")] []],
   .elem "article" [] [.elem "a" [("href", "/b")] []],
   .elem "article" [] [.elem "a" [("href", "/c")] []]]]

/-- A listing page with two units linking to the same URL. -/
def c4soup : HNode := .elem "html" [] [.elem "body" []
  [.elem "article" [] [.elem "a" [("href", "/a")] []],
   .elem "article" [] [.elem "a" [("href", "/a")] []]]]

/-- An article page with no container and two images, one of which will be
    served with a non-image content type. -/
def c9doc : HNode := .elem "html" [] [.elem "body" []
  [.elem "img" [("src", "/a.png"), ("alt", "pic")] [],
   .elem "img" [("src", "/b.jpg")] []]]

/-- A listing page with one unit linking to the article of `c9doc`. -/
def c9soup : HNode := .elem "html" [] [.elem "body" []
  [.elem "article" [] [.elem "a" [("href", "/x")] []]]]

/-- Page fetch serving `c9doc`. -/
def c9fp : String → Except String HNode := fun _ => .ok c9doc

/-- Image fetch: `.png` URLs are images, anything else is an HTML page. -/
def c9fi : String → Except String String :=
  fun u => if pyEndswith u ".png" then .ok "image/png" else .ok "text/html"

/-- The single record produced from `c9soup` with extraction and download on. -/
def c9rec : NewsItem := (runItems c9fp c9fi "now" 0 true true "imgs" c9soup).headD default

/-! ## Helper lemmas -/

theorem infixOf_self (l : List Char) : infixOf l l = true := by
  cases l with
  | nil => rfl
  | cons a t => simp [infixOf]

theorem pyIn_self (s : String) : pyIn s s = true := infixOf_self s.data

theorem imgCandidateRest_isOk (b : String) (img : HNode) :
    (imgCandidateRest b img).isOk = true := by
  unfold imgCandidateRest
  split
  · rfl
  · split <;> rfl

theorem imgCandidateH_isOk (b : String) (img : HNode) :
    (imgCandidateH b img).isOk = heightDimOk img := by
  cases hh : attrTruthy img "height" with
  | none => simp [imgCandidateH, heightDimOk, hh, imgCandidateRest_isOk]
  | some h =>
    cases hp : pyInt? h with
    | none => simp [imgCandidateH, heightDimOk, hh, hp, Except.isOk, Except.toBool]
    | some n =>
      by_cases hn : n < 100
      · simp [imgCandidateH, heightDimOk, hh, hp, hn, Except.isOk, Except.toBool]
      · simp only [imgCandidateH, hh, hp]
        rw [if_neg hn, imgCandidateRest_isOk]
        simp [heightDimOk, hh, hp]

theorem imgCandidate_isOk (b : String) (img : HNode) :
    (imgCandidate b img).isOk = imgDimOk img := by
  cases hw : attrTruthy img "width" with
  | none => simp [imgCandidate, imgDimOk, hw, imgCandidateH_isOk]
  | some w =>
    cases hp : pyInt? w with
    | none => simp [imgCandidate, imgDimOk, hw, hp, Except.isOk, Except.toBool]
    | some n =>
      by_cases hn : n < 100
      · simp [imgCandidate, imgDimOk, hw, hp, hn, Except.isOk, Except.toBool]
      · simp only [imgCandidate, hw, hp]
        rw [if_neg hn, imgCandidateH_isOk]
        simp only [imgDimOk, hw, hp]
        rw [if_neg hn]

theorem imgPass_isOk (b : String) (l : List HNode) :
    (imgPass b l).isOk = l.all imgDimOk := by
  induction l with
  | nil => rfl
  | cons img rest ih =>
    unfold imgPass
    cases hc : imgCandidate b img with
    | error e =>
      have h1 := imgCandidate_isOk b img
      rw [hc] at h1
      simp only [Except.isOk, Except.toBool] at h1 ⊢
      simp [List.all_cons, ← h1]
    | ok c =>
      have h1 := imgCandidate_isOk b img
      rw [hc] at h1
      simp only [Except.isOk, Except.toBool] at h1
      cases hr : imgPass b rest with
      | error e =>
        rw [hr] at ih
        simp only [Except.isOk, Except.toBool] at ih ⊢
        simp [List.all_cons, ← h1, ← ih]
      | ok r =>
        rw [hr] at ih
        simp only [Except.isOk, Except.toBool] at ih ⊢
        cases c <;> simp [List.all_cons, ← h1, ← ih]

/-! ## Claim C8 — zero units found yields the empty sequence -/

/-- Claim C8: when all four unit-locating strategies yield nothing, the run
    returns the empty output sequence, not the error shape and not an
    exception. -/
theorem claim_C8 (fp : String → Except String HNode) (fi : String → Except String String)
    (now : String) (maxA : Int) (ei di : Bool) (folder : String) (soup : HNode)
    (h : (findArticles soup).isEmpty = true) :
    get_latest_crypto_news (.ok soup) fp fi now maxA ei di folder = .ok [] := by
  unfold get_latest_crypto_news runItems
  simp [h]

/-- Claim C8 witness: a listing document without any matching structural
    element produces the empty record sequence. -/
theorem claim_C8_witness :
    (findArticles c8soup).isEmpty = true ∧
    get_latest_crypto_news (.ok c8soup) fpErr fiErr "now" 5 false false "imgs" = .ok [] :=
  ⟨rfl, claim_C8 fpErr fiErr "now" 5 false false "imgs" c8soup rfl⟩

/-! ## Claim C10 — thumbnail requires a src attribute -/

/-- Claim C10: a listing unit whose first `img` has no `src` attribute yields
    no thumbnail even when lazy-load attributes are present, and `data-src`
    is consulted only when the `src` value ends in the lazy-placeholder
    filename (otherwise any produced thumbnail URL is resolved from `src`). -/
theorem claim_C10 (article img : HNode)
    (hfind : article.find? (tagIs · "img") = some img) :
    (attr? img "src" = none → extractThumbnail article = none) ∧
    (∀ src, attr? img "src" = some src →
      pyEndswith src "lazy-placeholder.png" = false →
      ∀ t, extractThumbnail article = some t → t.url = resolveUrl listingUrl src) := by
  constructor
  · intro hsrc
    simp only [extractThumbnail, hfind, hsrc]
  · intro src hsrc hlazy t ht
    simp only [extractThumbnail, hfind, hsrc, hlazy, Bool.false_eq_true, false_and,
      if_false, false_or] at ht
    split at ht
    · cases ht
      rfl
    · cases ht

/-- Claim C10 witness: a unit whose only `img` carries `data-src` but no
    `src` produces no thumbnail. -/
theorem claim_C10_witness : extractThumbnail c10unit = none :=
  (claim_C10 c10unit c10img rfl).1 rfl

/-! ## Claim C2 — image URL uniqueness within one record -/

/-- Claim C2 counterexample: body-image extraction applies no URL
    de-duplication, so a record produced by a run can carry two `images`
    entries with the same URL (two identical `img` elements on the article
    page); the claimed per-record uniqueness invariant fails. -/
theorem claim_C2_counterexample :
    (runItems c2fp fiErr "now" 0 true false "imgs" c2soup).length = 1 ∧
    ¬ ((c2rec.images.map ImageRef.url).Nodup) := by
  constructor
  · rfl
  · decide

/-- Claim C2 (amended): the thumbnail merge itself never introduces a
    duplicate URL — it inserts the thumbnail only when its URL is absent, so
    it preserves URL-uniqueness of the image list; uniqueness of a whole
    record's `images` can still fail because body-image extraction may
    repeat a URL. -/
theorem claim_C2_amended (thumb : Option ImageRef) (imgs : List ImageRef)
    (h : (imgs.map ImageRef.url).Nodup) :
    ((mergeThumbnail thumb imgs).map ImageRef.url).Nodup := by
  cases thumb with
  | none => exact h
  | some t =>
    simp only [mergeThumbnail]
    by_cases hc : (imgs.map (·.url)).contains t.url = true
    · rw [if_pos hc]
      exact h
    · rw [if_neg hc, List.map_cons, List.nodup_cons]
      exact ⟨fun hm => hc (List.elem_iff.mpr hm), h⟩

/-- Claim C2 witness: merging a fresh thumbnail into a duplicate-free image
    list keeps the URLs duplicate-free. -/
theorem claim_C2_witness :
    ((mergeThumbnail (some ⟨"https://t/1.png", "", "", true⟩)
      [⟨"https://b/2.png", "a", "t", false⟩]).map ImageRef.url).Nodup :=
  claim_C2_amended _ _ (by decide)

/-! ## Claim C5 — totality of the image-candidate filter -/

/-- Claim C5 counterexample: the image filter is not total — an `img` whose
    `width` attribute is truthy but non-numeric makes `int()` raise, and the
    `ValueError` escapes `extract_article_images`' own scope (it is only
    caught later, inside `get_article_content`). -/
theorem claim_C5_counterexample :
    extract_article_images c5container "https://x/" =
      Except.error "invalid literal for int() with base 10: abc" := rfl

/-- Claim C5 (amended): the image-candidate filter returns a list exactly
    when every `img` in the region passes the `int()` calls actually reached
    (width absent/empty, or numeric; and when the width does not already
    exclude the image, height absent/empty or numeric); otherwise it raises.
    The background-image pass never raises. -/
theorem claim_C5_amended (container : HNode) (base_url : String) :
    (extract_article_images container base_url).isOk =
      (container.findAll (tagIs · "img")).all imgDimOk := by
  have h := imgPass_isOk base_url (container.findAll (tagIs · "img"))
  unfold extract_article_images
  cases hp : imgPass base_url (container.findAll (tagIs · "img")) with
  | error e =>
    rw [hp] at h
    exact h
  | ok imgs =>
    rw [hp] at h
    simpa [Except.isOk, Except.toBool] using h

/-! ## Claim C3 — summary versus timestamp -/

theorem paragraphSummary_cases (article : HNode) (ts : String) :
    paragraphSummary article ts = "" ∨ paragraphSummary article ts ≠ ts := by
  cases hfind : article.find? (tagIs · "p") with
  | none => exact Or.inl (by simp [paragraphSummary, hfind])
  | some p =>
    simp only [paragraphSummary, hfind]
    by_cases h1 : pyStrip p.textContent ≠ "" ∧ (pyStrip p.textContent).length > 10
    · rw [if_pos h1]
      by_cases h2 : pyIn (pyLower (pyStrip p.textContent)) (pyLower ts) = true ∨
          pyIn (pyLower ts) (pyLower (pyStrip p.textContent)) = true
      · exact Or.inl (if_pos h2)
      · refine Or.inr ?_
        rw [if_neg h2]
        intro heq
        exact h2 (Or.inl (by rw [heq]; exact pyIn_self _))
    · exact Or.inl (if_neg h1)

/-- Claim C3 counterexample: the run can produce a record whose `summary`
    equals its non-empty `timestamp` — a `div class="summary"` with short
    time-like text is picked up by the timestamp fallback and then again,
    unguarded, by the summary `div` fallback. -/
theorem claim_C3_counterexample :
    (runItems fpErr fiErr "now" 0 false false "imgs" c3soup).length = 1 ∧
    c3rec.summary = c3rec.timestamp ∧ c3rec.timestamp ≠ "" := by
  refine ⟨rfl, rfl, ?_⟩
  decide

/-- Claim C3 (amended): the first-paragraph path alone can never produce a
    summary equal to a non-empty timestamp (its substring guard rejects it —
    in particular an only-paragraph equal to the timestamp yields an empty
    paragraph summary), so whenever the unguarded `div` fallback yields
    nothing, the record's summary differs from its non-empty timestamp; the
    fallback itself, however, may still return the timestamp text. -/
theorem claim_C3_amended (article : HNode) (ts : String) (hts : ts ≠ "")
    (hdiv : divSummary article = "") : extractSummary article ts ≠ ts := by
  unfold extractSummary
  rcases paragraphSummary_cases article ts with hp | hp
  · rw [hp, if_pos rfl, hdiv]
    exact fun h => hts h.symm
  · by_cases hz : paragraphSummary article ts = ""
    · rw [hz, if_pos rfl, hdiv]
      exact fun h => hts h.symm
    · rw [if_neg hz]
      exact hp

/-- Claim C3 witness: a unit with only a time-like span has a non-empty
    timestamp and a summary that differs from it. -/
theorem claim_C3_witness :
    extractSummary c3warticle (extractTimestamp c3warticle) ≠ extractTimestamp c3warticle :=
  claim_C3_amended c3warticle (extractTimestamp c3warticle) (by decide) (by decide)

/-! ## Claim C6 — graceful degradation of the article-body extractor -/

/-- Claim C6 counterexample: on an article page with no locatable container,
    `bodyText` is *not* always the fixed failure-marker string — when the
    whole-document fallback image extraction itself raises (non-numeric
    `width`), the caught exception produces the error-message string instead
    (with an empty image list). -/
theorem claim_C6_counterexample :
    (findContainer (removeAll noiseMatch c6doc)).isNone = true ∧
    (get_article_content c6fp "https://x/a" true).content ≠ contentFailMsg ∧
    (get_article_content c6fp "https://x/a" true).images = [] := by
  refine ⟨rfl, ?_, rfl⟩
  decide

/-- Claim C6 (amended): the article-body extractor never lets a failure
    escape: on a fetch/parse error it returns the error-message string with
    an empty image list; on a page with no locatable main-content container
    it returns the fixed failure-marker string together with the fallback
    images extracted from the (noise-stripped) whole document when that
    extraction succeeds, and the caught-error shape (error string, no
    images) when that extraction raises. -/
theorem claim_C6_amended (fp : String → Except String HNode) (u : String) :
    (∀ e, fp u = .error e → ∀ ei, get_article_content fp u ei = ⟨fetchErrMsg e, []⟩) ∧
    (∀ doc, fp u = .ok doc → findContainer (removeAll noiseMatch doc) = none →
      get_article_content fp u true =
        (match extract_article_images (removeAll noiseMatch doc) u with
         | .ok imgs => ⟨contentFailMsg, imgs⟩
         | .error e => ⟨fetchErrMsg e, []⟩)) := by
  constructor
  · intro e he ei
    simp only [get_article_content, he]
  · intro doc hdoc hcont
    simp only [get_article_content, hdoc, hcont, if_true]

/-- Claim C6 witness: an image-free page with no locatable container yields
    exactly the failure marker and the (empty) whole-document fallback
    image list. -/
theorem claim_C6_witness :
    get_article_content c6wfp "https://x/a" true = ⟨contentFailMsg, []⟩ :=
  (claim_C6_amended c6wfp "https://x/a").2 c6wdoc rfl rfl

/-! ## Claim C4 — canonical-URL uniqueness across one run -/

theorem buildItem_url (fp : String → Except String HNode)
    (fi : String → Except String String) (now : String) (ei di : Bool)
    (folder : String) (i : Nat) (article : HNode) (u : Option String) :
    (buildItem fp fi now ei di folder i article u).url = u := rfl

theorem processLoop_urls_nodup (fp : String → Except String HNode)
    (fi : String → Except String String) (now : String) (ei di : Bool) (folder : String) :
    ∀ (units : List HNode) (seen : List String) (i : Nat),
      (∀ u ∈ (processLoop fp fi now ei di folder units seen i).filterMap NewsItem.url,
        u ∉ seen) ∧
      ((processLoop fp fi now ei di folder units seen i).filterMap NewsItem.url).Nodup := by
  intro units
  induction units with
  | nil =>
    intro seen i
    simp [processLoop]
  | cons a rest ih =>
    intro seen i
    cases hu : extractArticleUrl a with
    | some u =>
      by_cases hmem : seen.contains u = true
      · simp only [processLoop, hu]
        rw [if_pos hmem]
        exact ih seen (i + 1)
      · simp only [processLoop, hu]
        rw [if_neg hmem, List.filterMap_cons]
        simp only [buildItem_url]
        obtain ⟨ih1, ih2⟩ := ih (u :: seen) (i + 1)
        have hu_seen : u ∉ seen := fun hm => hmem (List.elem_iff.mpr hm)
        constructor
        · intro v hv
          rcases List.mem_cons.mp hv with hveq | hvmem
          · subst hveq
            exact hu_seen
          · intro hvseen
            exact ih1 v hvmem (List.mem_cons_of_mem _ hvseen)
        · rw [List.nodup_cons]
          refine ⟨fun hmm => ?_, ih2⟩
          exact ih1 u hmm (List.mem_cons_self _ _)
    | none =>
      simp only [processLoop, hu]
      rw [List.filterMap_cons]
      simp only [buildItem_url]
      exact ih seen (i + 1)

/-- Claim C4: across all records of one successful run, non-absent canonical
    URLs are pairwise distinct — a unit whose resolved URL was already seen
    is skipped whole, so the first occurrence wins. -/
theorem claim_C4 (fetchListing : Except String HNode)
    (fp : String → Except String HNode) (fi : String → Except String String)
    (now : String) (maxA : Int) (ei di : Bool) (folder : String)
    (items : List NewsItem)
    (h : get_latest_crypto_news fetchListing fp fi now maxA ei di folder = .ok items) :
    (items.filterMap NewsItem.url).Nodup := by
  cases fetchListing with
  | error e => simp [get_latest_crypto_news] at h
  | ok soup =>
    simp only [get_latest_crypto_news, Except.ok.injEq] at h
    subst h
    simp only [runItems]
    by_cases hemp : (findArticles soup).isEmpty = true
    · rw [if_pos hemp]
      simp
    · rw [if_neg hemp]
      exact (processLoop_urls_nodup fp fi now ei di folder _ [] 0).2

/-- Claim C4 witness: a listing with two units pointing at the same URL
    yields records with duplicate-free canonical URLs. -/
theorem claim_C4_witness :
    ((runItems fpErr fiErr "now" 0 false false "imgs" c4soup).filterMap
      NewsItem.url).Nodup :=
  claim_C4 (.ok c4soup) fpErr fiErr "now" 0 false false "imgs" _ rfl

/-! ## Claim C9 — local images are a faithful subsequence of `images` -/

theorem buildLocalImages_toRef_sublist (fi : String → Except String String)
    (folder : String) : ∀ (j : Nat) (imgs : List ImageRef),
    ((buildLocalImages fi folder j imgs).map LocalImageRef.toRef).Sublist imgs := by
  intro j imgs
  induction imgs generalizing j with
  | nil => simp [buildLocalImages]
  | cons img rest ih =>
    unfold buildLocalImages
    cases hd : download_image fi img.url folder (imgFilename j img.url) with
    | some path =>
      rw [List.map_cons]
      exact List.Sublist.cons₂ img (ih (j + 1))
    | none =>
      exact List.Sublist.cons img (ih (j + 1))

theorem buildLocalImages_eq_filterMap (fi : String → Except String String)
    (folder : String) : ∀ (j : Nat) (imgs : List ImageRef),
    buildLocalImages fi folder j imgs =
      (imgs.enumFrom j).filterMap (fun p =>
        (download_image fi p.2.url folder (imgFilename p.1 p.2.url)).map
          (fun path => ⟨p.2.url, path, p.2.alt, p.2.title, p.2.is_thumbnail⟩)) := by
  intro j imgs
  induction imgs generalizing j with
  | nil => simp [buildLocalImages]
  | cons img rest ih =>
    rw [List.enumFrom_cons, List.filterMap_cons]
    unfold buildLocalImages
    cases hd : download_image fi img.url folder (imgFilename j img.url) with
    | some path => simp [hd, ih (j + 1)]
    | none => simp [hd, ih (j + 1)]

theorem buildItem_local (fp : String → Except String HNode)
    (fi : String → Except String String) (now folder : String) (i : Nat)
    (a : HNode) (u : Option String) :
    (buildItem fp fi now true true folder i a u).local_images =
      buildLocalImages fi (folder ++ "/article_" ++ toString (i + 1)) 0
        ((buildItem fp fi now true true folder i a u).images) := by
  cases u with
  | none => simp [buildItem, buildLocalImages]
  | some uu =>
    by_cases hai :
        mergeThumbnail (extractThumbnail a) (get_article_content fp uu true).images = []
    · simp [buildItem, hai, buildLocalImages]
    · simp [buildItem, hai]

theorem processLoop_mem (fp : String → Except String HNode)
    (fi : String → Except String String) (now : String) (ei di : Bool) (folder : String) :
    ∀ (units : List HNode) (seen : List String) (i : Nat) (rec : NewsItem),
      rec ∈ processLoop fp fi now ei di folder units seen i →
      ∃ n a u, rec = buildItem fp fi now ei di folder n a u := by
  intro units
  induction units with
  | nil =>
    intro seen i rec h
    simp [processLoop] at h
  | cons a rest ih =>
    intro seen i rec h
    cases hu : extractArticleUrl a with
    | some u =>
      by_cases hmem : seen.contains u = true
      · simp only [processLoop, hu] at h
        rw [if_pos hmem] at h
        exact ih seen (i + 1) rec h
      · simp only [processLoop, hu] at h
        rw [if_neg hmem] at h
        rcases List.mem_cons.mp h with heq | hmem2
        · exact ⟨i, a, some u, heq⟩
        · exact ih (u :: seen) (i + 1) rec hmem2
    | none =>
      simp only [processLoop, hu] at h
      rcases List.mem_cons.mp h with heq | hmem2
      · exact ⟨i, a, none, heq⟩
      · exact ih seen (i + 1) rec hmem2

/-- Claim C9: in every record of a run with image download (and extraction)
    enabled, `local_images` is an order-preserving subsequence of `images`
    carrying over each entry's url, alt, title and thumbnail flag, and an
    entry of `images` is dropped exactly when `download_image` returned no
    path for it (fetch failure or a content type outside `image/*`). -/
theorem claim_C9 (fp : String → Except String HNode)
    (fi : String → Except String String) (now : String) (maxA : Int)
    (folder : String) (soup : HNode) (rec : NewsItem)
    (hmem : rec ∈ runItems fp fi now maxA true true folder soup) :
    ((rec.local_images.map LocalImageRef.toRef).Sublist rec.images) ∧
    ∃ artFolder, rec.local_images =
      (rec.images.enumFrom 0).filterMap (fun p =>
        (download_image fi p.2.url artFolder (imgFilename p.1 p.2.url)).map
          (fun path => ⟨p.2.url, path, p.2.alt, p.2.title, p.2.is_thumbnail⟩)) := by
  have hex : ∃ n a u, rec = buildItem fp fi now true true folder n a u := by
    simp only [runItems] at hmem
    by_cases hemp : (findArticles soup).isEmpty = true
    · rw [if_pos hemp] at hmem
      simp at hmem
    · rw [if_neg hemp] at hmem
      exact processLoop_mem fp fi now true true folder _ [] 0 rec hmem
  obtain ⟨n, a, u, hrec⟩ := hex
  have hloc : rec.local_images =
      buildLocalImages fi (folder ++ "/article_" ++ toString (n + 1)) 0 rec.images := by
    rw [hrec]
    exact buildItem_local fp fi now folder n a u
  constructor
  · rw [hloc]
    exact buildLocalImages_toRef_sublist fi _ 0 rec.images
  · exact ⟨folder ++ "/article_" ++ toString (n + 1),
      by rw [hloc]; exact buildLocalImages_eq_filterMap fi _ 0 rec.images⟩

/-- Claim C9 witness: a run whose article carries one downloadable and one
    non-image URL keeps exactly the downloadable one, in order, with its
    fields. -/
theorem claim_C9_witness :
    ((c9rec.local_images.map LocalImageRef.toRef).Sublist c9rec.images) ∧
    ∃ artFolder, c9rec.local_images =
      (c9rec.images.enumFrom 0).filterMap (fun p =>
        (download_image c9fi p.2.url artFolder (imgFilename p.1 p.2.url)).map
          (fun path => ⟨p.2.url, path, p.2.alt, p.2.title, p.2.is_thumbnail⟩)) :=
  claim_C9 c9fp c9fi "now" 0 "imgs" c9soup c9rec (by decide)

/-! ## Claim C1 — truncation versus de-duplication -/

theorem processLoop_prefix_of_take (fp : String → Except String HNode)
    (fi : String → Except String String) (now : String) (ei di : Bool) (folder : String) :
    ∀ (units : List HNode) (n : Nat) (seen : List String) (i : Nat),
      processLoop fp fi now ei di folder (units.take n) seen i <+:
        processLoop fp fi now ei di folder units seen i := by
  intro units
  induction units with
  | nil =>
    intro n seen i
    simp [processLoop]
  | cons a rest ih =>
    intro n seen i
    cases n with
    | zero => exact ⟨_, rfl⟩
    | succ m =>
      rw [List.take_succ_cons]
      cases hu : extractArticleUrl a with
      | some u =>
        by_cases hmem : seen.contains u = true
        · simp only [processLoop, hu]
          rw [if_pos hmem, if_pos hmem]
          exact ih m seen (i + 1)
        · simp only [processLoop, hu]
          rw [if_neg hmem, if_neg hmem]
          obtain ⟨t, ht⟩ := ih m (u :: seen) (i + 1)
          exact ⟨t, by rw [List.cons_append, ht]⟩
      | none =>
        simp only [processLoop, hu]
        obtain ⟨t, ht⟩ := ih m seen (i + 1)
        exact ⟨t, by rw [List.cons_append, ht]⟩

theorem processLoop_length_le (fp : String → Except String HNode)
    (fi : String → Except String String) (now : String) (ei di : Bool) (folder : String) :
    ∀ (units : List HNode) (seen : List String) (i : Nat),
      (processLoop fp fi now ei di folder units seen i).length ≤ units.length := by
  intro units
  induction units with
  | nil =>
    intro seen i
    simp [processLoop]
  | cons a rest ih =>
    intro seen i
    cases hu : extractArticleUrl a with
    | some u =>
      by_cases hmem : seen.contains u = true
      · simp only [processLoop, hu]
        rw [if_pos hmem]
        exact Nat.le_succ_of_le (ih seen (i + 1))
      · simp only [processLoop, hu]
        rw [if_neg hmem, List.length_cons]
        exact Nat.succ_le_succ (ih (u :: seen) (i + 1))
    | none =>
      simp only [processLoop, hu]
      rw [List.length_cons]
      exact Nat.succ_le_succ (ih seen (i + 1))

theorem processLoop_take_eq (fp : String → Except String HNode)
    (fi : String → Except String String) (now : String) (ei di : Bool) (folder : String) :
    ∀ (units : List HNode) (n : Nat) (seen : List String) (i : Nat),
      ((units.take n).filterMap extractArticleUrl).Nodup →
      (∀ u ∈ (units.take n).filterMap extractArticleUrl, u ∉ seen) →
      processLoop fp fi now ei di folder (units.take n) seen i =
        (processLoop fp fi now ei di folder units seen i).take n := by
  intro units
  induction units with
  | nil =>
    intro n seen i _ _
    simp [processLoop]
  | cons a rest ih =>
    intro n seen i hnod hseen
    cases n with
    | zero => simp [processLoop]
    | succ m =>
      rw [List.take_succ_cons] at hnod hseen ⊢
      cases hu : extractArticleUrl a with
      | some u =>
        rw [List.filterMap_cons, hu] at hnod hseen
        have hu_seen : ¬ seen.contains u = true := fun hc =>
          hseen u (List.mem_cons_self _ _) (List.elem_iff.mp hc)
        simp only [processLoop, hu]
        rw [if_neg hu_seen, if_neg hu_seen, List.take_succ_cons]
        congr 1
        apply ih m (u :: seen) (i + 1)
        · exact (List.nodup_cons.mp hnod).2
        · intro v hv hvmem
          rcases List.mem_cons.mp hvmem with hveq | hvseen
          · exact (List.nodup_cons.mp hnod).1 (hveq ▸ hv)
          · exact hseen v (List.mem_cons_of_mem _ hv) hvseen
      | none =>
        rw [List.filterMap_cons, hu] at hnod hseen
        simp only [processLoop, hu]
        rw [List.take_succ_cons]
        congr 1
        exact ih m seen (i + 1) hnod hseen

/-- Claim C1 counterexample: with a duplicate URL among the first `L` units,
    the run with limit `L` is *not* the first `L` surviving records of the
    untruncated run — truncation to `L` units happens before de-duplication,
    so a duplicate inside the window shrinks the output below `L` even
    though later units would have survived. -/
theorem claim_C1_counterexample :
    (findArticles c1soup).length = 3 ∧
    runItems fpErr fiErr "now" 2 false false "imgs" c1soup ≠
      (runItems fpErr fiErr "now" 0 false false "imgs" c1soup).take 2 := by
  refine ⟨rfl, ?_⟩
  decide

/-- Claim C1 (amended): truncation to the first `L` units happens after the
    strategy cascade, and the run with limit `L` yields exactly the
    surviving records of the first `L` units — a prefix of the untruncated
    run's output of length at most `L`; it equals the untruncated run's
    first `L` records exactly as claimed whenever the first `L` units carry
    no duplicate resolved URL. -/
theorem claim_C1_amended (fp : String → Except String HNode)
    (fi : String → Except String String) (now : String) (ei di : Bool)
    (folder : String) (soup : HNode) (L : Int) (hL : 0 < L) :
    (runItems fp fi now L ei di folder soup <+:
      runItems fp fi now 0 ei di folder soup) ∧
    (runItems fp fi now L ei di folder soup).length ≤ L.toNat ∧
    ((((findArticles soup).take L.toNat).filterMap extractArticleUrl).Nodup →
      runItems fp fi now L ei di folder soup =
        (runItems fp fi now 0 ei di folder soup).take L.toNat) := by
  simp only [runItems]
  by_cases hemp : (findArticles soup).isEmpty = true
  · rw [if_pos hemp, if_pos hemp]
    exact ⟨⟨_, rfl⟩, by simp, fun _ => by simp⟩
  · rw [if_neg hemp, if_neg hemp]
    rw [if_pos hL, if_neg (by decide : ¬ ((0 : Int) > 0))]
    refine ⟨processLoop_prefix_of_take fp fi now ei di folder _ _ [] 0, ?_, ?_⟩
    · calc (processLoop fp fi now ei di folder ((findArticles soup).take L.toNat) [] 0).length
          ≤ ((findArticles soup).take L.toNat).length :=
            processLoop_length_le fp fi now ei di folder _ [] 0
        _ ≤ L.toNat := by
            rw [List.length_take]
            exact Nat.min_le_left _ _
    · intro hnod
      exact processLoop_take_eq fp fi now ei di folder _ _ [] 0 hnod (by simp)

/-- Claim C1 witness: with three distinct-URL units and limit 2, the
    truncated run equals the first two records of the untruncated run. -/
theorem claim_C1_witness :
    (0 : Int) < 2 ∧
    runItems fpErr fiErr "now" 2 false false "imgs" c1wsoup =
      (runItems fpErr fiErr "now" 0 false false "imgs" c1wsoup).take (2 : Int).toNat :=
  ⟨by decide,
    (claim_C1_amended fpErr fiErr "now" false false "imgs" c1wsoup 2 (by decide)).2.2
      (by decide)⟩

/-! ## Claim C7 — idempotence of URL resolution -/

theorem pyStartswith_exists {s p : String} (h : pyStartswith s p = true) :
    ∃ t, s.data = p.data ++ t := by
  simp only [pyStartswith] at h
  obtain ⟨t, ht⟩ := List.isPrefixOf_iff_prefix.mp h
  exact ⟨t, ht.symm⟩

theorem pyUrlparse_scheme_http (B : String) (h : pyStartswith B "http://" = true) :
    (pyUrlparse B).scheme = "http" := by
  obtain ⟨t, ht⟩ := pyStartswith_exists h
  have hd : B.data = 'h' :: 't' :: 't' :: 'p' :: ':' :: '/' :: '/' :: t := ht
  simp [pyUrlparse, hd, List.takeWhile_cons, List.dropWhile_cons, isSchemeChar, pyLowerChar]

theorem pyUrlparse_scheme_https (B : String) (h : pyStartswith B "https://" = true) :
    (pyUrlparse B).scheme = "https" := by
  obtain ⟨t, ht⟩ := pyStartswith_exists h
  have hd : B.data = 'h' :: 't' :: 't' :: 'p' :: 's' :: ':' :: '/' :: '/' :: t := ht
  simp [pyUrlparse, hd, List.takeWhile_cons, List.dropWhile_cons, isSchemeChar, pyLowerChar]

theorem pyUrljoin_empty_url (B : String) (hB : B ≠ "") : pyUrljoin B "" = B := by
  simp [pyUrljoin, hB]

theorem pyUrlunparse_data (u : UrlParts) (hn : u.netloc ≠ "") (hs : u.scheme ≠ "") :
    ∃ r, (pyUrlunparse u).data = u.scheme.data ++ ':' :: '/' :: '/' :: r := by
  simp only [pyUrlunparse]
  rw [if_pos (Or.inl hn), if_pos hs]
  have d1 : (":" : String).data = [':'] := rfl
  have d2 : ("//" : String).data = ['/', '/'] := rfl
  have hext : ∀ (w x : String),
      (∃ r, w.data = u.scheme.data ++ ':' :: '/' :: '/' :: r) →
      ∃ r, (w ++ x).data = u.scheme.data ++ ':' :: '/' :: '/' :: r := by
    rintro w x ⟨r, hr⟩
    exact ⟨r ++ x.data, by simp [String.data_append, hr, List.append_assoc]⟩
  have hbase : ∀ (x : String),
      ∃ r, (u.scheme ++ ":" ++ ("//" ++ u.netloc ++ x)).data =
        u.scheme.data ++ ':' :: '/' :: '/' :: r := by
    intro x
    refine ⟨u.netloc.data ++ x.data, ?_⟩
    simp [String.data_append, d1, d2, List.append_assoc]
  by_cases hq : u.query ≠ ""
  · rw [if_pos hq]
    by_cases hf : u.fragment ≠ ""
    · rw [if_pos hf]
      exact hext _ _ (hext _ _ (hext _ _ (hext _ _ (hbase _))))
    · rw [if_neg hf]
      exact hext _ _ (hext _ _ (hbase _))
  · rw [if_neg hq]
    by_cases hf : u.fragment ≠ ""
    · rw [if_pos hf]
      exact hext _ _ (hext _ _ (hbase _))
    · rw [if_neg hf]
      exact hbase _

theorem pyUrlunparse_startswith (u : UrlParts) (hn : u.netloc ≠ "") (hs : u.scheme ≠ "") :
    pyStartswith (pyUrlunparse u) (u.scheme ++ "://") = true := by
  obtain ⟨r, hr⟩ := pyUrlunparse_data u hn hs
  simp only [pyStartswith, List.isPrefixOf_iff_prefix, hr, String.data_append]
  exact ⟨r, by simp⟩

/-- Claim C7 counterexample: resolution is not idempotent for every base URL
    and candidate string — with an upper-case scheme in the base and the
    empty candidate, the first resolution returns the base verbatim and the
    second normalizes it. -/
theorem claim_C7_counterexample :
    resolveUrl "HTTPS://a/b" (resolveUrl "HTTPS://a/b" "") ≠
      resolveUrl "HTTPS://a/b" "" := by decide

/-- Claim C7 (amended): resolution *is* idempotent whenever the base URL
    carries a literal lower-case `http://` or `https://` prefix and a
    non-empty network location — which holds for every base the scraper
    actually uses; for arbitrary base strings idempotence fails. -/
theorem claim_C7_amended (B R : String)
    (hB : pyStartswith B "http://" = true ∨ pyStartswith B "https://" = true)
    (hn : (pyUrlparse B).netloc ≠ "") :
    resolveUrl B (resolveUrl B R) = resolveUrl B R := by
  have hBne : B ≠ "" := by
    intro h
    subst h
    rcases hB with h | h <;> exact absurd h (by decide)
  have hscheme : (pyUrlparse B).scheme = "http" ∨ (pyUrlparse B).scheme = "https" := by
    rcases hB with h | h
    · exact Or.inl (pyUrlparse_scheme_http B h)
    · exact Or.inr (pyUrlparse_scheme_https B h)
  have key : ∀ R' : String, R' ≠ "" →
      (pyStartswith (pyUrljoin B R') "http://" = true ∨
        pyStartswith (pyUrljoin B R') "https://" = true) ∨
      pyUrljoin B R' = R' := by
    intro R' hR'ne
    simp only [pyUrljoin]
    rw [if_neg hBne, if_neg hR'ne]
    by_cases hmis : (pyUrlparseDef R' (pyUrlparse B).scheme).scheme ≠ (pyUrlparse B).scheme ∨
        (pyUrlparseDef R' (pyUrlparse B).scheme).scheme ∉ usesRelative
    · rw [if_pos hmis]
      exact Or.inr rfl
    · rw [if_neg hmis]
      push_neg at hmis
      obtain ⟨hseq, _⟩ := hmis
      have huscheme : (pyUrlparseDef R' (pyUrlparse B).scheme).scheme = "http" ∨
          (pyUrlparseDef R' (pyUrlparse B).scheme).scheme = "https" := by
        rw [hseq]
        exact hscheme
      have hus_ne : (pyUrlparseDef R' (pyUrlparse B).scheme).scheme ≠ "" := by
        rcases huscheme with h | h <;> rw [h] <;> decide
      have hmem : (pyUrlparseDef R' (pyUrlparse B).scheme).scheme ∈ usesNetloc := by
        rcases huscheme with h | h <;> rw [h] <;> decide
      have toStart : ∀ (X : String),
          pyStartswith X ((pyUrlparseDef R' (pyUrlparse B).scheme).scheme ++ "://") = true →
          pyStartswith X "http://" = true ∨ pyStartswith X "https://" = true := by
        intro X hX
        rcases huscheme with h | h <;> rw [h] at hX
        · exact Or.inl hX
        · exact Or.inr hX
      by_cases hnl : (pyUrlparseDef R' (pyUrlparse B).scheme).netloc ≠ ""
      · rw [if_pos ⟨hmem, hnl⟩]
        exact Or.inl (toStart _ (pyUrlunparse_startswith _ hnl hus_ne))
      · rw [if_neg (fun hh => hnl hh.2)]
        have hNV : (if (pyUrlparseDef R' (pyUrlparse B).scheme).scheme ∈ usesNetloc then
            (pyUrlparse B).netloc else (pyUrlparseDef R' (pyUrlparse B).scheme).netloc) =
            (pyUrlparse B).netloc := if_pos hmem
        rw [hNV]
        by_cases hp : (pyUrlparseDef R' (pyUrlparse B).scheme).path = ""
        · rw [if_pos hp]
          exact Or.inl (toStart _ (pyUrlunparse_startswith _ hn hus_ne))
        · rw [if_neg hp]
          exact Or.inl (toStart _ (pyUrlunparse_startswith _ hn hus_ne))
  by_cases hR : pyStartswith R "http://" = true ∨ pyStartswith R "https://" = true
  · have h1 : resolveUrl B R = R := by
      unfold resolveUrl
      rw [if_pos hR]
    rw [h1]
    exact h1
  · have h1 : resolveUrl B R = pyUrljoin B R := by
      unfold resolveUrl
      rw [if_neg hR]
    by_cases hR0 : R = ""
    · subst hR0
      rw [h1, pyUrljoin_empty_url B hBne]
      unfold resolveUrl
      rw [if_pos hB]
    · rcases key R hR0 with hstart | hsame
      · rw [h1]
        unfold resolveUrl
        rw [if_pos hstart]
      · rw [h1, hsame]
        unfold resolveUrl
        rw [if_neg hR]
        exact hsame

/-- Claim C7 witness: resolution against the scraper's own base URL is
    idempotent on a relative candidate. -/
theorem claim_C7_witness :
    (pyUrlparse "https://crypto.news/").netloc ≠ "" ∧
    resolveUrl "https://crypto.news/" (resolveUrl "https://crypto.news/" "/bar") =
      resolveUrl "https://crypto.news/" "/bar" :=
  ⟨by decide,
    claim_C7_amended "https://crypto.news/" "/bar" (Or.inr (by decide)) (by decide)⟩

end AutoCrawl
